import Mathlib

/-!
Verification of the Interview Intelligent System pipeline core.

Shallow embedding of the Python sources:
- `src/utils/company_extractor.py` (priority-ordered company disambiguation)
- `src/utils/time_utils.py` (exponential time-decay weighting)
- `src/utils/rate_limiter.py` (adaptive per-host rate limiter)
- `src/scrapers/base_scraper.py` (`safe_request`, scrape metadata)
- `src/scrapers/pipeline_manager.py` (`_store_experience`)
- `src/analysis/topic_extractor.py` (topic confidence)
- `src/analysis/insights_generator.py` (priority levels, sample-size guard)

Python floats are modelled as rationals (`ℚ`); `math.exp` is modelled with
`Real.exp` over `ℝ`.  Python dicts keyed by strings are modelled as
association lists, and iteration order over the pattern table is its
insertion order, as in CPython 3.7+.
-/

namespace InterviewIntel

/-! ### Company extractor (`src/utils/company_extractor.py`)

`re.search(r'\b' + re.escape(pattern) + r'\b', text)` on a literal
pattern is modelled by scanning every position of the text for an
occurrence of the pattern that is flanked by word boundaries.  A word
character is `[a-zA-Z0-9_]` (the inputs are ASCII), and `\b` holds
between two positions iff exactly one of the two surrounding characters
is a word character (a position outside the string counts as non-word).
-/

/-- `\w` for the ASCII texts this pipeline handles. -/
def is_word_char (c : Char) : Bool :=
  c.isAlphanum || c = '_'

/-- Wordness of an optional character; out-of-bounds counts as non-word. -/
def opt_word : Option Char → Bool
  | none => false
  | some c => is_word_char c

/-- `needle` occurs at the very start of `hay`. -/
def list_begins_with : List Char → List Char → Bool
  | [], _ => true
  | _ :: _, [] => false
  | p :: ps, c :: cs => p = c && list_begins_with ps cs

/-- Python `needle in hay` (contiguous substring containment). -/
def contains_sub (needle : List Char) : List Char → Bool
  | [] => list_begins_with needle []
  | c :: cs => list_begins_with needle (c :: cs) || contains_sub needle cs

/-- The pattern `pat` occurs at the head of `s`, flanked by `\b` on both
sides; `prev` is the character immediately before this position. -/
def bounded_match_here (prev : Option Char) (pat s : List Char) : Bool :=
  (opt_word prev != opt_word pat.head?) &&
  list_begins_with pat s &&
  (opt_word pat.getLast? != opt_word (s.drop pat.length).head?)

/-- `re.search` of `\b`-escaped-`pat`-`\b` in `s`, scanning from a position
whose preceding character is `prev`. -/
def bounded_search_from (prev : Option Char) (pat : List Char) : List Char → Bool
  | [] => bounded_match_here prev pat []
  | c :: cs => bounded_match_here prev pat (c :: cs) || bounded_search_from (some c) pat cs

/-- `re.search(r'\b' + re.escape(pat) + r'\b', text)` succeeds. -/
def bounded_search (pat text : List Char) : Bool :=
  bounded_search_from none pat text

/-- Python `str.lower()` on these ASCII texts. -/
def lower_chars (s : String) : List Char :=
  s.toList.map Char.toLower

/-- `CompanyExtractor.company_patterns`: the priority-ordered table, in
source (insertion) order. -/
def company_patterns : List (String × List String) :=
  [ ("PhonePe", ["phonepe", "phone pe"]),
    ("Myntra", ["myntra", "myntra.com"]),
    ("PayPal", ["paypal", "paypal.com"]),
    ("PayTM", ["paytm", "paytm.com", "one97"]),
    ("Google", ["google", "alphabet", "goog", "google.com", "alphabet inc"]),
    ("Amazon", ["amazon", "amzn", "aws", "amazon.com", "amazon inc"]),
    ("Microsoft", ["microsoft", "msft", "ms", "microsoft.com", "microsoft corporation"]),
    ("Apple", ["apple", "aapl", "apple inc", "apple.com"]),
    ("Meta", ["meta", "facebook", "fb", "instagram", "whatsapp", "meta platforms"]),
    ("Netflix", ["netflix", "nflx", "netflix.com", "netflix inc"]),
    ("Flipkart", ["flipkart", "flipkart.com", "flipkart india"]),
    ("Zomato", ["zomato", "zomato.com"]),
    ("Swiggy", ["swiggy", "swiggy.com"]),
    ("Ola", ["ola", "ola cabs", "ola.com"]),
    ("Uber", ["uber", "uber.com"]),
    ("Razorpay", ["razorpay", "razorpay.com"]),
    ("Dream11", ["dream11", "dream 11"]),
    ("Carwale", ["carwale", "carwale.com", "car wale"]),
    ("BigBasket", ["bigbasket", "big basket"]),
    ("Grofers", ["grofers", "blinkit"]),
    ("Dunzo", ["dunzo", "dunzo.com"]),
    ("Freshworks", ["freshworks", "freshdesk", "freshservice"]),
    ("Zoho", ["zoho", "zoho.com"]),
    ("InMobi", ["inmobi", "inmobi.com"]),
    ("ShareChat", ["sharechat", "share chat"]),
    ("Nykaa", ["nykaa", "nykaa.com"]),
    ("PolicyBazaar", ["policybazaar", "policy bazaar"]),
    ("MakeMyTrip", ["makemytrip", "make my trip", "mmt"]),
    ("BookMyShow", ["bookmyshow", "book my show", "bms"]),
    ("Lenskart", ["lenskart", "lenskart.com"]),
    ("UrbanCompany", ["urbancompany", "urban company", "urbanclap", "urban clap"]),
    ("Cred", ["cred", "cred.com"]),
    ("Unacademy", ["unacademy", "unacademy.com"]),
    ("Vedantu", ["vedantu", "vedantu.com"]),
    ("Byju", ["byju", "byjus", "byju\x27s"]) ]

/-- `CompanyExtractor._matches_company_patterns`: some pattern matches the
text at a word boundary. -/
def matches_company_patterns (text : List Char) (patterns : List String) : Bool :=
  patterns.any fun pattern => bounded_search pattern.toList text

/-- The priority scan of `extract_company_from_content`: the first table
entry whose patterns match wins. -/
def find_first_company (text : List Char) : List (String × List String) → Option String
  | [] => none
  | (company_name, patterns) :: rest =>
    if matches_company_patterns text patterns then some company_name
    else find_first_company text rest

/-- `CompanyExtractor._extract_from_url_patterns`: the loop body only
`continue`s for every entry of its `url_patterns` table (the platforms
indicate the source, not the target company), so the function always
falls through to `return "Unknown"`. -/
def extract_from_url_patterns (_title _content : String) : String :=
  "Unknown"

/-- `CompanyExtractor._check_target_company_first`: a plain substring hit
of the lowercased target, then the target patterns (defaulting to the
lowercased target itself) with word boundaries. -/
def check_target_company_first (title content target_company : String) : String :=
  let text := lower_chars (title ++ " " ++ content)
  let target_lower := lower_chars target_company
  if contains_sub target_lower text then target_company
  else
    let patterns :=
      match (company_patterns.find? fun e => e.1 = target_company) with
      | some e => e.2
      | none => [String.mk target_lower]
    if matches_company_patterns text patterns then target_company
    else "Unknown"

/-- `CompanyExtractor.extract_company_from_content`.  A `target_company`
of `none` or `""` is falsy in Python, so the target check is skipped. -/
def extract_company_from_content (title content : String)
    (target_company : Option String) : String :=
  let rest :=
    let text := lower_chars (title ++ " " ++ content)
    match find_first_company text company_patterns with
    | some company_name => company_name
    | none => extract_from_url_patterns title content
  match target_company with
  | some t =>
    if t ≠ "" then
      let extracted := check_target_company_first title content t
      if extracted ≠ "Unknown" then extracted else rest
    else rest
  | none => rest

/-! ### Time-decay calculator (`src/utils/time_utils.py`)

`ExponentialDecayCalculator.calculate_weight` computes
`(now - experience_date).days / 30.44` and `max(exp(-λ·months), 0.01)`.
Timestamps are rationals counting seconds; the `.days` component of a
Python `timedelta` is the floor of the total seconds over 86400. -/

/-- Default `decay_lambda` of `ExponentialDecayCalculator.__init__`. -/
def default_decay_lambda : ℝ := 0.08

/-- `(now - experience_date).days`: whole days, floored. -/
def delta_days (experience_date now : ℚ) : ℤ :=
  ⌊(now - experience_date) / 86400⌋

/-- `ExponentialDecayCalculator.calculate_weight`. -/
noncomputable def calculate_weight (decay_lambda : ℝ) (experience_date now : ℚ) : ℝ :=
  let age_months : ℝ := ((delta_days experience_date now : ℤ) : ℝ) / 30.44
  max (Real.exp (-decay_lambda * age_months)) 0.01

/-- The metadata added by `BaseScraper.scrape_company_experiences` before
yielding a record: `source_platform`, `scraped_at = utcnow()`, and
`time_weight = calculate_weight(experience_data.get('experience_date', utcnow()))`. -/
structure ScrapedMetadata where
  source_platform : String
  scraped_at : ℚ
  time_weight : ℝ

/-- The metadata-update step of `scrape_company_experiences` (lines
200-207 of `base_scraper.py`); a record with no `experience_date` key
defaults to the current time. -/
noncomputable def attach_scrape_metadata (platform : String) (now : ℚ)
    (experience_date : Option ℚ) : ScrapedMetadata :=
  { source_platform := platform, scraped_at := now,
    time_weight := calculate_weight default_decay_lambda (experience_date.getD now) now }

/-! ### Adaptive rate limiter (`src/utils/rate_limiter.py`)

All of `SmartRateLimiter`'s dictionaries are keyed per host, so the
state is modelled per host.  `defaultdict` defaults: empty request
deque, 0 failures, no last request, streak 0, multiplier 1.0. -/

/-- `SmartRateLimiter.base_requests_per_minute`. -/
def base_requests_per_minute : ℕ := 20

/-- `SmartRateLimiter.failure_backoff_base` (1.5). -/
def failure_backoff_base : ℚ := 3 / 2

/-- `SmartRateLimiter.max_backoff_time` (seconds). -/
def max_backoff_time : ℚ := 60

/-- Per-host slice of the limiter state. -/
structure HostLimiterState where
  requests : List ℚ
  failures : ℕ
  last_request : Option ℚ
  success_streak : ℕ
  adaptive_multiplier : ℚ
deriving DecidableEq, Repr

/-- The `defaultdict` initial per-host state. -/
def init_host_limiter : HostLimiterState :=
  { requests := [], failures := 0, last_request := none,
    success_streak := 0, adaptive_multiplier := 1 }

/-- `SmartRateLimiter.record_success`: zero the failure counter,
bump the streak, and on the 5th consecutive success scale the
multiplier by 0.9 (floored at 0.8) and reset the streak. -/
def record_success (s : HostLimiterState) : HostLimiterState :=
  let streak := s.success_streak + 1
  if streak ≥ 5 then
    { s with failures := 0, success_streak := 0,
             adaptive_multiplier := max 0.8 (s.adaptive_multiplier * 0.9) }
  else
    { s with failures := 0, success_streak := streak }

/-- `SmartRateLimiter.record_failure`: bump the failure counter, reset
the streak, scale the multiplier by 1.2 (capped at 3.0). -/
def record_failure (s : HostLimiterState) : HostLimiterState :=
  { s with failures := s.failures + 1, success_streak := 0,
           adaptive_multiplier := min 3 (s.adaptive_multiplier * 1.2) }

/-- A success or failure recording against one host. -/
inductive LimiterEvent where
  | success
  | failure
deriving DecidableEq, Repr

/-- Apply one recording. -/
def limiter_step (s : HostLimiterState) : LimiterEvent → HostLimiterState
  | .success => record_success s
  | .failure => record_failure s

/-- The per-host limiter state after a sequence of recordings, starting
from the `defaultdict` initial state. -/
def run_limiter (events : List LimiterEvent) : HostLimiterState :=
  events.foldl limiter_step init_host_limiter

/-- `SmartRateLimiter._calculate_wait_time`.  Returns the wait together
with the pruned request deque (the Python `while ... popleft()` mutates
the deque; the deque is in ascending timestamp order, so popping stale
entries from the left is `dropWhile`). -/
def calculate_wait_time (lim : HostLimiterState) (base_delay now : ℚ) : ℚ × List ℚ :=
  let requests := lim.requests.dropWhile fun t => now - t > 60
  let wait₁ : ℚ := base_delay
  let wait₂ :=
    if requests.length ≥ base_requests_per_minute then
      max wait₁ (60 - (now - requests.headD now))
    else wait₁
  let wait₃ :=
    if lim.failures > 0 then
      max wait₂ (min (failure_backoff_base ^ lim.failures) max_backoff_time)
    else wait₂
  let wait₄ := wait₃ * lim.adaptive_multiplier
  let time_since_last := now - (lim.last_request.getD 0)
  let wait₅ := if time_since_last < wait₄ then wait₄ - time_since_last else 0
  (max wait₅ 0, requests)

/-- Observable actions of `safe_request`. -/
inductive ReqEvent where
  | sleep (seconds : ℚ)
  | attempt (index : ℕ)
deriving DecidableEq, Repr

/-- `SmartRateLimiter.wait_if_needed`: sleep `min(wait·jitter, 10)`
whenever the computed wait is positive (jitter is drawn from
`[0.8, 1.2]` and passed in here), then record the request. -/
def wait_if_needed (lim : HostLimiterState) (base_delay now jitter : ℚ) :
    List ReqEvent × HostLimiterState :=
  let (wait_time, requests) := calculate_wait_time lim base_delay now
  let events := if wait_time > 0 then [ReqEvent.sleep (min (wait_time * jitter) 10)] else []
  (events, { lim with requests := requests ++ [now], last_request := some now })

/-! ### Crawl engine (`src/scrapers/base_scraper.py`)

`safe_request` is modelled with the HTTP layer abstracted as a map from
attempt index to status code (network exceptions are not modelled: every
attempt yields a status).  The events list records sleeps and HTTP
attempts in order, so ordering claims about sleeping versus
short-circuiting are statable. -/

/-- The `Config` values `safe_request` reads (env-var defaults from
`src/config/settings.py`). -/
structure ScrapeConfig where
  respect_robots_txt : Bool
  request_delay : ℚ
  max_retries : ℕ
  max_consecutive_failures : ℕ
deriving DecidableEq, Repr

/-- Defaults: `RESPECT_ROBOTS_TXT=false`, `REQUEST_DELAY=1`,
`MAX_RETRIES=2`, `MAX_CONSECUTIVE_FAILURES=3`. -/
def default_config : ScrapeConfig :=
  { respect_robots_txt := false, request_delay := 1,
    max_retries := 2, max_consecutive_failures := 3 }

/-- The per-scraper mutable state `safe_request` touches. -/
structure ScraperState where
  seen_urls : List String
  domain_failures : List (String × ℕ)
deriving DecidableEq, Repr

/-- `self.domain_failures.get(domain, 0)`. -/
def lookup_failures (m : List (String × ℕ)) (domain : String) : ℕ :=
  match m.find? fun e => e.1 = domain with
  | some e => e.2
  | none => 0

/-- `self.domain_failures[domain] = v`. -/
def set_failures (m : List (String × ℕ)) (domain : String) (v : ℕ) : List (String × ℕ) :=
  if m.any fun e => e.1 = domain then
    m.map fun e => if e.1 = domain then (domain, v) else e
  else m ++ [(domain, v)]

/-- Result of one `safe_request` call: the response status (if any), the
observable events in order, and the updated scraper/limiter states. -/
structure RequestOutcome where
  response : Option ℕ
  events : List ReqEvent
  scraper : ScraperState
  limiter : HostLimiterState
deriving DecidableEq, Repr

/-- The retry loop of `safe_request` (`for attempt in range(MAX_RETRIES)`):
200 marks the URL seen, records a limiter success and zeroes the host
failure counter; 403 bumps the host failure counter and stops retrying
once it reaches 3, otherwise sleeps `5·(attempt+1)`; 429 records a
limiter failure and sleeps `2^attempt`; 404 and other statuses just move
to the next attempt; after the loop the result is `None`. -/
def run_attempts (url domain : String) (responses : ℕ → ℕ) :
    ℕ → ℕ → ScraperState → HostLimiterState → RequestOutcome
  | 0, _, st, lim => ⟨none, [], st, lim⟩
  | remaining + 1, attempt, st, lim =>
    let status := responses attempt
    if status = 200 then
      ⟨some status, [ReqEvent.attempt attempt],
        { st with seen_urls := st.seen_urls ++ [url],
                  domain_failures := set_failures st.domain_failures domain 0 },
        record_success lim⟩
    else if status = 403 then
      let f := lookup_failures st.domain_failures domain + 1
      let st' := { st with domain_failures := set_failures st.domain_failures domain f }
      if f ≥ 3 then ⟨none, [ReqEvent.attempt attempt], st', lim⟩
      else
        let rest := run_attempts url domain responses remaining (attempt + 1) st' lim
        ⟨rest.response,
          ReqEvent.attempt attempt :: ReqEvent.sleep (5 * ((attempt : ℚ) + 1)) :: rest.events,
          rest.scraper, rest.limiter⟩
    else if status = 429 then
      let rest := run_attempts url domain responses remaining (attempt + 1) st (record_failure lim)
      ⟨rest.response,
        ReqEvent.attempt attempt :: ReqEvent.sleep ((2 : ℚ) ^ attempt) :: rest.events,
        rest.scraper, rest.limiter⟩
    else
      let rest := run_attempts url domain responses remaining (attempt + 1) st lim
      ⟨rest.response, ReqEvent.attempt attempt :: rest.events, rest.scraper, rest.limiter⟩

/-- `BaseScraper.safe_request`.  In source order: duplicate suppression,
robots.txt gate (bypassed when `RESPECT_ROBOTS_TXT` is false, with the
crawl delay falling back to `REQUEST_DELAY`), the rate-limiter wait,
the consecutive-failure short-circuit, then the retry loop. -/
def safe_request (cfg : ScrapeConfig) (robots_can_fetch : Bool) (robots_delay : ℚ)
    (responses : ℕ → ℕ) (url domain : String) (now jitter : ℚ)
    (st : ScraperState) (lim : HostLimiterState) : RequestOutcome :=
  if url ∈ st.seen_urls then ⟨none, [], st, lim⟩
  else if cfg.respect_robots_txt && !robots_can_fetch then ⟨none, [], st, lim⟩
  else
    let crawl_delay := if cfg.respect_robots_txt then robots_delay else cfg.request_delay
    let (wait_events, lim₁) := wait_if_needed lim crawl_delay now jitter
    if lookup_failures st.domain_failures domain ≥ cfg.max_consecutive_failures then
      ⟨none, wait_events, st, lim₁⟩
    else
      let rest := run_attempts url domain responses cfg.max_retries 0 st lim₁
      ⟨rest.response, wait_events ++ rest.events, rest.scraper, rest.limiter⟩

/-! ### Persistence (`src/scrapers/pipeline_manager.py`)

`PipelineManager._store_experience` over a relational store modelled as
in-memory lists of rows with auto-increment ids. -/

/-- The `experience_data` dict handed to `_store_experience` (optional
keys are read with `.get` defaults in the source). -/
structure ExperienceData where
  company : String
  title : String
  content : String
  source_url : String
  source_platform : String
  role : Option String
  experience_date : ℚ
  time_weight : Option ℚ
  outcome : Option String
deriving DecidableEq, Repr

/-- A row of the `companies` table. -/
structure CompanyRow where
  id : ℕ
  name : String
  display_name : String
deriving DecidableEq, Repr

/-- A row of the `interview_experiences` table. -/
structure ExperienceRow where
  id : ℕ
  company_id : ℕ
  title : String
  content : String
  source_url : String
  source_platform : String
  role : String
  experience_date : ℚ
  time_weight : ℚ
  success : Bool
  scraped_at : ℚ
  processed_at : Option ℚ
deriving DecidableEq, Repr

/-- The relational store. -/
structure Database where
  companies : List CompanyRow
  experiences : List ExperienceRow
  next_company_id : ℕ
  next_experience_id : ℕ
deriving DecidableEq, Repr

/-- The get-or-create company step of `_store_experience`: the id to use
for the experience row, plus the updated companies table and counter. -/
def get_or_create_company (db : Database) (name : String) : ℕ × List CompanyRow × ℕ :=
  match db.companies.find? fun c => c.name = name with
  | some c => (c.id, db.companies, db.next_company_id)
  | none =>
    (db.next_company_id,
     db.companies ++ [⟨db.next_company_id, name, name⟩],
     db.next_company_id + 1)

/-- `PipelineManager._store_experience`: if a row with the same
`source_url` exists, return its id and change nothing; otherwise get or
create the company row, then insert a new experience row. -/
def store_experience (db : Database) (d : ExperienceData) (now : ℚ) : Option ℕ × Database :=
  match db.experiences.find? fun r => r.source_url = d.source_url with
  | some existing => (some existing.id, db)
  | none =>
    let company_id := (get_or_create_company db d.company).1
    let companies := (get_or_create_company db d.company).2.1
    let next_cid := (get_or_create_company db d.company).2.2
    let row : ExperienceRow :=
      { id := db.next_experience_id, company_id := company_id,
        title := d.title, content := d.content, source_url := d.source_url,
        source_platform := d.source_platform,
        role := d.role.getD "Software Engineer",
        experience_date := d.experience_date,
        time_weight := d.time_weight.getD 1,
        success := d.outcome == some "offer",
        scraped_at := now, processed_at := none }
    (some row.id,
     { companies := companies, experiences := db.experiences ++ [row],
       next_company_id := next_cid, next_experience_id := db.next_experience_id + 1 })

/-- `source_url` is unique across the persisted experiences. -/
def unique_source_urls (db : Database) : Prop :=
  db.experiences.Pairwise fun a b => a.source_url ≠ b.source_url

/-! ### Topic extractor confidence (`src/analysis/topic_extractor.py`) -/

/-- Python 3 `round` to an integer: round half to even. -/
def round_half_even (x : ℚ) : ℤ :=
  let f := ⌊x⌋
  let r := x - f
  if r < 1 / 2 then f
  else if 1 / 2 < r then f + 1
  else if 2 ∣ f then f else f + 1

/-- Python `round(x, 2)`. -/
def round2 (x : ℚ) : ℚ :=
  (round_half_even (x * 100) : ℚ) / 100

/-- `AdvancedTopicExtractor._calculate_topic_confidence`:
`round((min(raw_count/5, 1) + min(frequency/2, 1)) / 2, 2)`. -/
def calculate_topic_confidence (raw_count : ℕ) (frequency : ℚ) : ℚ :=
  let count_factor := min ((raw_count : ℚ) / 5) 1
  let frequency_factor := min (frequency / 2) 1
  round2 ((count_factor + frequency_factor) / 2)

/-! ### Insight aggregator (`src/analysis/insights_generator.py`) -/

/-- `CompanyInsightsGenerator.min_sample_size`. -/
def min_sample_size : ℕ := 3

/-- `CompanyInsightsGenerator._determine_priority_level` result. -/
inductive Priority where
  | HIGH
  | MEDIUM
  | LOW
deriving DecidableEq, Repr

/-- `CompanyInsightsGenerator._determine_priority_level`. -/
def determine_priority_level (frequency importance confidence : ℚ) : Priority :=
  let priority_score := frequency * 0.4 + importance * 0.4 + confidence * 20 * 0.2
  if priority_score ≥ 15 ∧ confidence ≥ 0.7 then .HIGH
  else if priority_score ≥ 8 ∧ confidence ≥ 0.5 then .MEDIUM
  else .LOW

/-- The combined score `_determine_priority_level` branches on. -/
def priority_score (frequency importance confidence : ℚ) : ℚ :=
  frequency * 0.4 + importance * 0.4 + confidence * 20 * 0.2

/-- The dict built by `CompanyInsightsGenerator._insufficient_data_response`. -/
structure InsufficientDataResponse where
  company : String
  analysis_date : String
  status : String
  message : String
  sample_size : ℕ
  quality_score : ℚ
  sample_adequacy : String
  confidence_level : String
  recommendations : List String
deriving DecidableEq, Repr

/-- `CompanyInsightsGenerator._insufficient_data_response`. -/
def insufficient_data_response (analysis_date company_name : String)
    (experience_count : ℕ) : InsufficientDataResponse :=
  { company := company_name, analysis_date := analysis_date,
    status := "insufficient_data",
    message := "Only " ++ toString experience_count ++
      " experiences available. Need at least " ++ toString min_sample_size ++
      " for analysis.",
    sample_size := experience_count,
    quality_score := 0, sample_adequacy := "insufficient",
    confidence_level := "none",
    recommendations :=
      ["Collect more interview experiences",
       "Try different scraping sources",
       "Wait for more data to accumulate"] }

/-- Outcome of `generate_comprehensive_insights`: either the structured
insufficient-data response, or a normal insights dict, whose core fields
are the company, analysis date, sample size and the per-experience topic
analyses (each analysis dict gets the experience attached as
`experience_metadata`); the further derived sections are functions of
these analyses. -/
inductive InsightReport (ε α : Type) where
  | insufficient (r : InsufficientDataResponse)
  | insights (company : String) (analysis_date : String) (sample_size : ℕ)
      (experience_analyses : List (α × ε))
deriving DecidableEq, Repr

/-- `CompanyInsightsGenerator.generate_comprehensive_insights`, with the
injected topic extractor abstracted as `topic_extract`. -/
def generate_comprehensive_insights {ε α : Type} (topic_extract : ε → α)
    (analysis_date company_name : String) (experiences : List ε) : InsightReport ε α :=
  if experiences.length < min_sample_size then
    .insufficient (insufficient_data_response analysis_date company_name experiences.length)
  else
    .insights company_name analysis_date experiences.length
      (experiences.map fun exp => (topic_extract exp, exp))

/-- Whether a report is the structured insufficient-data response. -/
def is_insufficient_data {ε α : Type} : InsightReport ε α → Bool
  | .insufficient _ => true
  | .insights _ _ _ _ => false

/-! ### Concrete sample data used by witnesses -/

/-- A store holding one experience row. -/
def sample_db : Database :=
  { companies := [{ id := 0, name := "Acme", display_name := "Acme" }],
    experiences :=
      [{ id := 0, company_id := 0, title := "t", content := "c",
         source_url := "http://example.com/a", source_platform := "geeksforgeeks",
         role := "SDE", experience_date := 0, time_weight := 1,
         success := false, scraped_at := 0, processed_at := none }],
    next_company_id := 1, next_experience_id := 1 }

/-- A scraped record carrying the same `source_url` as `sample_db`'s row. -/
def sample_experience_data : ExperienceData :=
  { company := "Acme", title := "t2", content := "c2",
    source_url := "http://example.com/a", source_platform := "leetcode",
    role := none, experience_date := 0, time_weight := none, outcome := none }

/-! ## Theorems -/

/-- Unfolding `determine_priority_level`'s internal `let`. -/
theorem determine_priority_level_ite (f i c : ℚ) :
    determine_priority_level f i c =
      if priority_score f i c ≥ 15 ∧ c ≥ 0.7 then Priority.HIGH
      else if priority_score f i c ≥ 8 ∧ c ≥ 0.5 then Priority.MEDIUM
      else Priority.LOW := rfl

/-- **C1.** Priority is assigned from the combined score
`freq·0.4 + imp·0.4 + conf·20·0.2`: HIGH iff score ≥ 15 and conf ≥ 0.7;
failing that, MEDIUM iff score ≥ 8 and conf ≥ 0.5; LOW otherwise.
Consequently HIGH priority implies confidence ≥ 0.7. -/
theorem priority_level_characterization (f i c : ℚ) :
    (determine_priority_level f i c = Priority.HIGH ↔
        priority_score f i c ≥ 15 ∧ c ≥ 0.7) ∧
    (determine_priority_level f i c = Priority.MEDIUM ↔
        ¬(priority_score f i c ≥ 15 ∧ c ≥ 0.7) ∧ priority_score f i c ≥ 8 ∧ c ≥ 0.5) ∧
    (determine_priority_level f i c = Priority.LOW ↔
        ¬(priority_score f i c ≥ 15 ∧ c ≥ 0.7) ∧ ¬(priority_score f i c ≥ 8 ∧ c ≥ 0.5)) ∧
    (determine_priority_level f i c = Priority.HIGH → c ≥ 0.7) := by
  rw [determine_priority_level_ite]
  split_ifs with h1 h2 <;> simp_all

/-- **C1 witness.** A concrete HIGH-priority rollup:
frequency 50, importance 0, confidence 1. -/
theorem priority_level_characterization_witness :
    determine_priority_level 50 0 1 = Priority.HIGH ∧ (1 : ℚ) ≥ 0.7 :=
  have h : determine_priority_level 50 0 1 = Priority.HIGH := by
    norm_num [determine_priority_level_ite, priority_score]
  ⟨h, (priority_level_characterization 50 0 1).2.2.2 h⟩

/-- **C2.** The decay calculator returns
`max(exp(-0.08 · days/30.44), 0.01)` over the whole-day age, the scraper
stores exactly this weight at scrape time, and whenever the experience
date is not after the scrape time the stored weight lies in [0.01, 1]. -/
theorem time_weight_formula_and_bounds (platform : String) (now : ℚ) (d : Option ℚ) :
    (attach_scrape_metadata platform now d).time_weight
        = calculate_weight default_decay_lambda (d.getD now) now ∧
    calculate_weight default_decay_lambda (d.getD now) now
        = max (Real.exp (-(0.08 : ℝ) *
            (((delta_days (d.getD now) now : ℤ) : ℝ) / 30.44))) 0.01 ∧
    (d.getD now ≤ now →
      0.01 ≤ (attach_scrape_metadata platform now d).time_weight ∧
      (attach_scrape_metadata platform now d).time_weight ≤ 1) := by
   refine ⟨rfl, rfl, fun h => ⟨le_max_right _ _, max_le ?_ (by norm_num)⟩⟩
   rw [Real.exp_le_one_iff]
   have hd : (0 : ℤ) ≤ delta_days (d.getD now) now := by
     have : (0 : ℚ) ≤ (now - d.getD now) / 86400 :=
       div_nonneg (by linarith) (by norm_num)
     exact Int.floor_nonneg.mpr this
   have hm : (0 : ℝ) ≤ ((delta_days (d.getD now) now : ℤ) : ℝ) / 30.44 :=
     div_nonneg (by exact_mod_cast hd) (by norm_num)
   have hl : (0 : ℝ) ≤ default_decay_lambda := by norm_num [default_decay_lambda]
   rw [neg_mul]
   exact neg_nonpos.mpr (mul_nonneg hl hm)

/-- **C2 witness.** An experience dated exactly at its scrape time. -/
theorem time_weight_formula_and_bounds_witness :
    (Option.getD (some (0 : ℚ)) 0 ≤ (0 : ℚ)) ∧
    (0.01 ≤ (attach_scrape_metadata "geeksforgeeks" 0 (some 0)).time_weight ∧
      (attach_scrape_metadata "geeksforgeeks" 0 (some 0)).time_weight ≤ 1) :=
  ⟨le_rfl, (time_weight_formula_and_bounds "geeksforgeeks" 0 (some 0)).2.2 le_rfl⟩

/-- **C3.** With fewer than `min_sample_size` (3) analyzed experiences the
aggregator returns the structured insufficient-data response (whose
`status` field is `"insufficient_data"`); with exactly `min_sample_size`
experiences it produces a normal insight result. -/
theorem insight_sample_size_guard {ε α : Type} (topic_extract : ε → α)
    (analysis_date company_name : String) (experiences : List ε) :
    (experiences.length < min_sample_size →
      generate_comprehensive_insights topic_extract analysis_date company_name experiences
        = .insufficient (insufficient_data_response analysis_date company_name
            experiences.length) ∧
      (insufficient_data_response analysis_date company_name experiences.length).status
        = "insufficient_data") ∧
    (experiences.length = min_sample_size →
      is_insufficient_data
        (generate_comprehensive_insights topic_extract analysis_date company_name
          experiences) = false) := by
  constructor
  · intro h
    exact ⟨by simp [generate_comprehensive_insights, h], rfl⟩
  · intro h
    simp [generate_comprehensive_insights, h, is_insufficient_data]

/-- **C3 witness.** Two experiences are refused, three are analyzed. -/
theorem insight_sample_size_guard_witness :
    ([(), ()].length < min_sample_size ∧
      generate_comprehensive_insights (fun _ => ()) "2025-01-01" "Amazon" [(), ()]
        = .insufficient (insufficient_data_response "2025-01-01" "Amazon" 2)) ∧
    ([(), (), ()].length = min_sample_size ∧
      is_insufficient_data
        (generate_comprehensive_insights (fun _ => ()) "2025-01-01" "Amazon"
          [(), (), ()]) = false) :=
  ⟨⟨by decide,
    ((insight_sample_size_guard (fun _ => ()) "2025-01-01" "Amazon" [(), ()]).1
      (by decide)).1⟩,
   ⟨by decide,
    (insight_sample_size_guard (fun _ => ()) "2025-01-01" "Amazon" [(), (), ()]).2
      (by decide)⟩⟩

/-- **C4.** Storing is idempotent on `source_url`: when a row with the
record's `source_url` already exists, storing changes nothing (no second
row, no field update); and storing preserves uniqueness of `source_url`
across the persisted experiences. -/
theorem store_experience_idempotent_and_unique (db : Database) (d : ExperienceData)
    (now : ℚ) :
    ((∃ r ∈ db.experiences, r.source_url = d.source_url) →
      (store_experience db d now).2 = db) ∧
    (unique_source_urls db → unique_source_urls (store_experience db d now).2) := by
  cases hfind : db.experiences.find? fun r => r.source_url = d.source_url with
  | some existing =>
    constructor
    · intro _
      simp [store_experience, hfind]
    · intro hu
      simpa [store_experience, hfind] using hu
  | none =>
    have hnone : ∀ r ∈ db.experiences, r.source_url ≠ d.source_url := by
      intro r hr
      have := List.find?_eq_none.mp hfind r hr
      simpa using this
    constructor
    · rintro ⟨r, hr, hurl⟩
      exact absurd hurl (hnone r hr)
    · intro hu
      unfold unique_source_urls at hu ⊢
      simp only [store_experience, hfind]
      rw [List.pairwise_append]
      refine ⟨hu, List.pairwise_singleton _ _, ?_⟩
      intro a ha b hb
      simp only [List.mem_singleton] at hb
      subst hb
      exact hnone a ha

/-- **C4 witness.** Re-storing a record whose URL is already present
leaves the one-row store untouched and keeps URLs unique. -/
theorem store_experience_idempotent_and_unique_witness :
    (store_experience sample_db sample_experience_data 5).2 = sample_db ∧
    unique_source_urls (store_experience sample_db sample_experience_data 5).2 :=
  have h := store_experience_idempotent_and_unique sample_db sample_experience_data 5
  ⟨h.1 (by decide), h.2 (by simp [unique_source_urls, sample_db])⟩

/-- A successful table scan returns the name of a table entry whose
patterns match the text at word boundaries. -/
theorem find_first_company_mem (text : List Char) :
    ∀ (l : List (String × List String)) (c : String),
      find_first_company text l = some c →
      ∃ e ∈ l, e.1 = c ∧ matches_company_patterns text e.2 = true := by
  intro l
  induction l with
  | nil => intro c h; simp [find_first_company] at h
  | cons e rest ih =>
    intro c h
    obtain ⟨name, pats⟩ := e
    rw [find_first_company] at h
    by_cases hm : matches_company_patterns text pats = true
    · rw [if_pos hm] at h
      injection h with h'
      exact ⟨(name, pats), List.mem_cons_self _ _, h', hm⟩
    · rw [if_neg hm] at h
      obtain ⟨e, he, h1, h2⟩ := ih c h
      exact ⟨e, List.mem_cons_of_mem _ he, h1, h2⟩

/-- With no target, the extractor is the priority scan of the table,
falling back to `"Unknown"`. -/
theorem extract_none_eq (title content : String) :
    extract_company_from_content title content none =
      match find_first_company (lower_chars (title ++ " " ++ content)) company_patterns with
      | some c => c
      | none => "Unknown" := rfl

/-- The target check returns either the target itself or `"Unknown"`. -/
theorem check_target_company_first_cases (title content t : String) :
    check_target_company_first title content t = t ∨
    check_target_company_first title content t = "Unknown" := by
  simp only [check_target_company_first]
  split_ifs <;> simp

/-- With a non-empty target, the extractor tries the target check first
and otherwise behaves as the no-target scan. -/
theorem extract_some_eq (title content t : String) (ht : t ≠ "") :
    extract_company_from_content title content (some t) =
      if check_target_company_first title content t ≠ "Unknown"
      then check_target_company_first title content t
      else extract_company_from_content title content none := by
  simp only [extract_company_from_content]
  rw [if_pos ht]

/-- The no-target extraction is `"Unknown"` or a key of the table. -/
theorem extract_none_cases (title content : String) :
    extract_company_from_content title content none = "Unknown" ∨
    extract_company_from_content title content none ∈ company_patterns.map Prod.fst := by
  rw [extract_none_eq]
  cases hfind :
      find_first_company (lower_chars (title ++ " " ++ content)) company_patterns with
  | none => exact Or.inl rfl
  | some c =>
    obtain ⟨e, he, h1, _⟩ := find_first_company_mem _ _ _ hfind
    exact Or.inr (h1 ▸ List.mem_map_of_mem Prod.fst he)

/-- **C5.** On the title `"PhonePe Interview Experience"` with content
mentioning Walmart, Flipkart and a PhonePe SDE round and no target, the
extractor returns `"PhonePe"`, even though Flipkart's patterns also
match, because PhonePe precedes Flipkart in the priority table. -/
theorem phonepe_precedes_flipkart_example :
    extract_company_from_content "PhonePe Interview Experience"
      "I met engineers from Walmart and Flipkart before my PhonePe SDE round." none
      = "PhonePe" ∧
    (∃ e ∈ company_patterns, e.1 = "Flipkart" ∧
      matches_company_patterns
        (lower_chars ("PhonePe Interview Experience" ++ " " ++
          "I met engineers from Walmart and Flipkart before my PhonePe SDE round."))
        e.2 = true) ∧
    (company_patterns.map Prod.fst).indexOf "PhonePe"
      < (company_patterns.map Prod.fst).indexOf "Flipkart" :=
  ⟨by decide, by decide, by decide⟩

/-- **C6 counterexample.** With target `"Ola"` and the text
`"Viola concert great show"`, no Ola pattern occurs as a whole word, yet
extraction returns `"Ola"`: the target check matches the lowercased
target as a plain substring (inside `"viola"`) before any word-boundary
matching. -/
theorem target_substring_match_counterexample :
    extract_company_from_content "Viola concert" "great show" (some "Ola") = "Ola" ∧
    (∀ e ∈ company_patterns, e.1 = "Ola" →
      matches_company_patterns (lower_chars ("Viola concert" ++ " " ++ "great show"))
        e.2 = false) ∧
    contains_sub (lower_chars "Ola")
      (lower_chars ("Viola concert" ++ " " ++ "great show")) = true :=
  ⟨by decide, by decide, by decide⟩

/-- **C6 (amended).** Matching against the pattern table uses word
boundaries: with no supplied target, a company is returned only when one
of its table patterns occurs word-bounded in the concatenated lowercase
text.  (A supplied target is first checked by plain substring
containment, so a target can match on substring overlap alone.) -/
theorem no_target_extraction_word_bounded (title content c : String)
    (hc : extract_company_from_content title content none = c)
    (hunk : c ≠ "Unknown") :
    ∃ e ∈ company_patterns, e.1 = c ∧
      matches_company_patterns (lower_chars (title ++ " " ++ content)) e.2 = true := by
  rw [extract_none_eq] at hc
  cases hfind :
      find_first_company (lower_chars (title ++ " " ++ content)) company_patterns with
  | none => rw [hfind] at hc; exact absurd hc.symm hunk
  | some c' =>
    rw [hfind] at hc
    cases hc
    exact find_first_company_mem _ _ _ hfind

/-- **C6 witness.** The no-target extraction of `"Google interview"`
returns `"Google"`, backed by a word-bounded pattern match. -/
theorem no_target_extraction_word_bounded_witness :
    extract_company_from_content "Google interview" "phone screen" none = "Google" ∧
    ∃ e ∈ company_patterns, e.1 = "Google" ∧
      matches_company_patterns (lower_chars ("Google interview" ++ " " ++ "phone screen"))
        e.2 = true :=
  ⟨by decide,
   no_target_extraction_word_bounded "Google interview" "phone screen" "Google"
     (by decide) (by decide)⟩

/-- **C10.** The extractor's result set is closed: always either
`"Unknown"`, the supplied target, or a key of the pattern table — never
any other free-text company name. -/
theorem extract_company_closed_set (title content : String) (target : Option String) :
    extract_company_from_content title content target = "Unknown" ∨
    (∃ t, target = some t ∧ extract_company_from_content title content target = t) ∨
    extract_company_from_content title content target ∈ company_patterns.map Prod.fst := by
  cases target with
  | none =>
    rcases extract_none_cases title content with h | h
    · exact Or.inl h
    · exact Or.inr (Or.inr h)
  | some t =>
    by_cases ht : t = ""
    · subst ht
      have heq : extract_company_from_content title content (some "")
          = extract_company_from_content title content none := rfl
      rw [heq]
      rcases extract_none_cases title content with h | h
      · exact Or.inl h
      · exact Or.inr (Or.inr h)
    · rw [extract_some_eq title content t ht]
      by_cases hne : check_target_company_first title content t ≠ "Unknown"
      · rw [if_pos hne]
        rcases check_target_company_first_cases title content t with hc | hc
        · exact Or.inr (Or.inl ⟨t, rfl, hc⟩)
        · exact absurd hc hne
      · rw [if_neg hne]
        rcases extract_none_cases title content with h | h
        · exact Or.inl h
        · exact Or.inr (Or.inr h)

/-- `wait_if_needed` emits at most one event, and it is a sleep. -/
theorem wait_if_needed_events (lim : HostLimiterState) (base_delay now jitter : ℚ) :
    (wait_if_needed lim base_delay now jitter).1 = [] ∨
    ∃ t, (wait_if_needed lim base_delay now jitter).1 = [ReqEvent.sleep t] := by
  simp only [wait_if_needed]
  by_cases h : (calculate_wait_time lim base_delay now).1 > 0
  · exact Or.inr ⟨_, by rw [if_pos h]⟩
  · exact Or.inl (by rw [if_neg h])

/-- **C7 (amended).** Once a host has accumulated at least
`MAX_CONSECUTIVE_FAILURES` (3) consecutive 403 failures, every
subsequent `safe_request` for a URL on that host returns null without
attempting an HTTP request; the short-circuit happens after the
rate-limit wait, so a sleep may still occur before returning null. -/
theorem failure_short_circuit (robots_can_fetch : Bool) (robots_delay : ℚ)
    (responses : ℕ → ℕ) (url domain : String) (now jitter : ℚ)
    (st : ScraperState) (lim : HostLimiterState)
    (h : lookup_failures st.domain_failures domain
        ≥ default_config.max_consecutive_failures) :
    (safe_request default_config robots_can_fetch robots_delay responses url domain
        now jitter st lim).response = none ∧
    ∀ i, ReqEvent.attempt i ∉
      (safe_request default_config robots_can_fetch robots_delay responses url domain
        now jitter st lim).events := by
  unfold safe_request
  by_cases hseen : url ∈ st.seen_urls
  · rw [if_pos hseen]
    exact ⟨rfl, fun i => by simp⟩
  · rw [if_neg hseen]
    have hrob : ¬((default_config.respect_robots_txt && !robots_can_fetch) = true) := by
      simp [default_config]
    rw [if_neg hrob]
    cases hw : wait_if_needed lim
        (if default_config.respect_robots_txt then robots_delay
         else default_config.request_delay) now jitter with
    | mk evs lim₁ =>
      simp only [hw]
      rw [if_pos h]
      refine ⟨rfl, fun i => ?_⟩
      have hevs := wait_if_needed_events lim
        (if default_config.respect_robots_txt then robots_delay
         else default_config.request_delay) now jitter
      rw [hw] at hevs
      rcases hevs with hevs | ⟨t, hevs⟩ <;> simp at hevs <;> subst hevs <;> simp

/-- **C7 witness.** A host at 3 consecutive failures: the request is
refused with no HTTP attempt. -/
theorem failure_short_circuit_witness :
    lookup_failures [("example.com", 3)] "example.com"
        ≥ default_config.max_consecutive_failures ∧
    (safe_request default_config true 1 (fun _ => 200) "http://example.com/a"
        "example.com" 100 1 ⟨[], [("example.com", 3)]⟩
        { init_host_limiter with last_request := some 100 }).response = none :=
  ⟨by decide,
   (failure_short_circuit true 1 (fun _ => 200) "http://example.com/a" "example.com"
     100 1 ⟨[], [("example.com", 3)]⟩
     { init_host_limiter with last_request := some 100 } (by decide)).1⟩

/-- **C7 counterexample.** The claim as stated — no sleep before the
short-circuit — is false: with the host at 3 consecutive failures and a
request recorded at the current instant, `safe_request` still sleeps for
the computed rate-limit wait (1 second here) before returning null,
because the failure check runs after `wait_if_needed`. -/
theorem failure_short_circuit_sleeps_counterexample :
    lookup_failures [("example.com", 3)] "example.com"
        ≥ default_config.max_consecutive_failures ∧
    (safe_request default_config true 1 (fun _ => 200) "http://example.com/a"
        "example.com" 100 1 ⟨[], [("example.com", 3)]⟩
        { init_host_limiter with last_request := some 100 }).events
      = [ReqEvent.sleep 1] := by
  constructor
  · decide
  · norm_num [safe_request, wait_if_needed, calculate_wait_time, lookup_failures,
      init_host_limiter, default_config, base_requests_per_minute]

/-- One limiter recording keeps the multiplier inside `[0.8, 3]`. -/
theorem multiplier_step_bounds (s : HostLimiterState) (e : LimiterEvent)
    (h1 : 0.8 ≤ s.adaptive_multiplier) (h2 : s.adaptive_multiplier ≤ 3) :
    0.8 ≤ (limiter_step s e).adaptive_multiplier ∧
    (limiter_step s e).adaptive_multiplier ≤ 3 := by
  cases e with
  | success =>
    simp only [limiter_step, record_success]
    split_ifs
    · exact ⟨le_max_left _ _, max_le (by norm_num) (by nlinarith)⟩
    · exact ⟨h1, h2⟩
  | failure =>
    simp only [limiter_step, record_failure]
    exact ⟨le_min (by norm_num) (by nlinarith), min_le_left _ _⟩

/-- Folding recordings preserves the multiplier bounds. -/
theorem foldl_multiplier_bounds (events : List LimiterEvent) :
    ∀ s : HostLimiterState, 0.8 ≤ s.adaptive_multiplier → s.adaptive_multiplier ≤ 3 →
      0.8 ≤ (events.foldl limiter_step s).adaptive_multiplier ∧
      (events.foldl limiter_step s).adaptive_multiplier ≤ 3 := by
  induction events with
  | nil => exact fun s h1 h2 => ⟨h1, h2⟩
  | cons e rest ih =>
    intro s h1 h2
    have hs := multiplier_step_bounds s e h1 h2
    exact ih (limiter_step s e) hs.1 hs.2

/-- **C8.** The per-host adaptive multiplier starts at 1.0 and stays in
`[0.8, 3.0]` under every sequence of success/failure recordings;
recording a success zeroes the failure counter and bumps the streak,
with every 5th consecutive success scaling the multiplier by 0.9
(floored at 0.8) and resetting the streak, while a failure bumps the
failure counter, scales the multiplier by 1.2 (capped at 3.0) and resets
the streak. -/
theorem adaptive_multiplier_invariant (events : List LimiterEvent) :
    init_host_limiter.adaptive_multiplier = 1 ∧
    (∀ s : HostLimiterState,
      (record_success s).failures = 0 ∧
      (s.success_streak + 1 ≥ 5 →
        (record_success s).adaptive_multiplier = max 0.8 (s.adaptive_multiplier * 0.9) ∧
        (record_success s).success_streak = 0) ∧
      (s.success_streak + 1 < 5 →
        (record_success s).adaptive_multiplier = s.adaptive_multiplier ∧
        (record_success s).success_streak = s.success_streak + 1) ∧
      (record_failure s).failures = s.failures + 1 ∧
      (record_failure s).success_streak = 0 ∧
      (record_failure s).adaptive_multiplier = min 3 (s.adaptive_multiplier * 1.2)) ∧
    0.8 ≤ (run_limiter events).adaptive_multiplier ∧
    (run_limiter events).adaptive_multiplier ≤ 3 := by
  refine ⟨rfl, fun s => ?_, ?_⟩
  · refine ⟨?_, fun h5 => ?_, fun h5 => ?_, rfl, rfl, rfl⟩
    · simp only [record_success]
      split_ifs <;> rfl
    · simp only [record_success]
      rw [if_pos h5]
      exact ⟨rfl, rfl⟩
    · simp only [record_success]
      rw [if_neg (by omega)]
      exact ⟨rfl, rfl⟩
  · exact foldl_multiplier_bounds events init_host_limiter
      (by norm_num [init_host_limiter]) (by norm_num [init_host_limiter])

/-- **C8 witness.** The 5th consecutive success on a host at streak 4
rescales the multiplier; a one-event run stays in range. -/
theorem adaptive_multiplier_invariant_witness :
    (record_success ⟨[], 2, none, 4, 1⟩).failures = 0 ∧
    (record_success ⟨[], 2, none, 4, 1⟩).adaptive_multiplier = max 0.8 (1 * 0.9) ∧
    0.8 ≤ (run_limiter [.success]).adaptive_multiplier ∧
    (run_limiter [.success]).adaptive_multiplier ≤ 3 :=
  have h := adaptive_multiplier_invariant [.success]
  ⟨(h.2.1 ⟨[], 2, none, 4, 1⟩).1,
   ((h.2.1 ⟨[], 2, none, 4, 1⟩).2.1 (by decide)).1,
   h.2.2.1, h.2.2.2⟩

/-- Half-to-even rounding lands within half a unit. -/
theorem round_half_even_close (x : ℚ) : |(round_half_even x : ℚ) - x| ≤ 1 / 2 := by
  have hle : (⌊x⌋ : ℚ) ≤ x := Int.floor_le x
  have hlt : x < (⌊x⌋ : ℚ) + 1 := Int.lt_floor_add_one x
  simp only [round_half_even]
  split_ifs with h1 h2 h3
  · rw [abs_sub_comm, abs_of_nonneg (by linarith)]
    linarith
  · rw [abs_of_nonneg (by push_cast; linarith)]
    push_cast
    linarith
  · rw [abs_sub_comm, abs_of_nonneg (by linarith)]
    linarith
  · rw [abs_of_nonneg (by push_cast; linarith)]
    push_cast
    linarith

/-- `round(x, 2)` lands within half a hundredth. -/
theorem round2_close (x : ℚ) : |round2 x - x| ≤ 1 / 200 := by
  have h := round_half_even_close (x * 100)
  have : round2 x - x = ((round_half_even (x * 100) : ℚ) - x * 100) / 100 := by
    simp only [round2]
    ring
  rw [this, abs_div, abs_of_pos (by norm_num : (0 : ℚ) < 100)]
  linarith [abs_nonneg ((round_half_even (x * 100) : ℚ) - x * 100)]

/-- `round(x, 2)` keeps `[0, 1]` invariant. -/
theorem round2_mem_unit (x : ℚ) (h0 : 0 ≤ x) (h1 : x ≤ 1) :
    0 ≤ round2 x ∧ round2 x ≤ 1 := by
  have h := round_half_even_close (x * 100)
  rw [abs_le] at h
  have hlow : (-1 : ℤ) < round_half_even (x * 100) := by
    have : (-1 : ℚ) < (round_half_even (x * 100) : ℚ) := by linarith
    exact_mod_cast this
  have hhigh : round_half_even (x * 100) < 101 := by
    have : (round_half_even (x * 100) : ℚ) < 101 := by linarith
    exact_mod_cast this
  constructor
  · have : (0 : ℚ) ≤ (round_half_even (x * 100) : ℚ) := by exact_mod_cast (by omega : (0 : ℤ) ≤ round_half_even (x * 100))
    simp only [round2]
    positivity
  · have : (round_half_even (x * 100) : ℚ) ≤ 100 := by exact_mod_cast (by omega : round_half_even (x * 100) ≤ (100 : ℤ))
    simp only [round2]
    rw [div_le_one (by norm_num : (0 : ℚ) < 100)]
    exact this

/-- **C9.** For a topic with `raw_count ≥ 1` and frequency ≥ 0, the
extractor's confidence is `(min(raw_count/5, 1) + min(frequency/2, 1)) / 2`
rounded to two decimals (so within 1/200 of the exact value), and it
lies in `[0, 1]`. -/
theorem topic_confidence_formula_and_bounds (raw_count : ℕ) (frequency : ℚ)
    (hc : 1 ≤ raw_count) (hf : 0 ≤ frequency) :
    calculate_topic_confidence raw_count frequency
      = round2 ((min ((raw_count : ℚ) / 5) 1 + min (frequency / 2) 1) / 2) ∧
    |calculate_topic_confidence raw_count frequency
      - (min ((raw_count : ℚ) / 5) 1 + min (frequency / 2) 1) / 2| ≤ 1 / 200 ∧
    0 ≤ calculate_topic_confidence raw_count frequency ∧
    calculate_topic_confidence raw_count frequency ≤ 1 := by
  have hca : (0 : ℚ) ≤ min ((raw_count : ℚ) / 5) 1 :=
    le_min (by positivity) (by norm_num)
  have hfa : (0 : ℚ) ≤ min (frequency / 2) 1 :=
    le_min (by positivity) (by norm_num)
  have hx0 : (0 : ℚ) ≤ (min ((raw_count : ℚ) / 5) 1 + min (frequency / 2) 1) / 2 := by
    positivity
  have hx1 : (min ((raw_count : ℚ) / 5) 1 + min (frequency / 2) 1) / 2 ≤ 1 := by
    have h1 : min ((raw_count : ℚ) / 5) 1 ≤ 1 := min_le_right _ _
    have h2 : min (frequency / 2) 1 ≤ 1 := min_le_right _ _
    linarith
  exact ⟨rfl, round2_close _, (round2_mem_unit _ hx0 hx1).1, (round2_mem_unit _ hx0 hx1).2⟩

/-- **C9 witness.** A topic mentioned once with zero frequency. -/
theorem topic_confidence_formula_and_bounds_witness :
    1 ≤ 1 ∧ (0 : ℚ) ≤ 0 ∧
    0 ≤ calculate_topic_confidence 1 0 ∧ calculate_topic_confidence 1 0 ≤ 1 :=
  have h := topic_confidence_formula_and_bounds 1 0 (by decide) le_rfl
  ⟨by decide, le_rfl, h.2.2.1, h.2.2.2⟩

end InterviewIntel
